import Mathlib

/-!
Verification of the virtual-branch record decoder from
`src/packages/tauri/src/virtual_branches/branch/mod.rs`.

The decoder reconstructs a `Branch` from a flat key-value reader
(`TryFrom<&dyn crate::reader::Reader> for Branch`).  We embed the reader
capability, the reader error type, and the decode algorithm, keeping the
evaluation order of the source exactly: in particular, `tree` and `head` are
read as strings early but parsed only inside the final struct literal,
after the ownership string has been parsed.
-/

/-- Embedding of `crate::reader::Error`: either the key was not found, or an
underlying I/O error occurred.  `std::io::Error` is represented by its
message string (the decoder only ever constructs it from a formatted
message with `ErrorKind::Other`). -/
inductive RError where
  | NotFound : RError
  | IOError : String → RError
deriving DecidableEq, Repr

/-- Modelled from the spec: the `Display` rendering of the reader error
(the `crate::reader` module is outside `src/`).  `NotFound` renders as a
fixed text and `IOError` as the message of the underlying I/O error. -/
def RError.display : RError → String
  | .NotFound => "file not found"
  | .IOError m => m

/-- The wrapping the decoder applies at almost every step:
`Error::IOError(io::Error::new(ErrorKind::Other, format!("key: cause")))`. -/
def wrapKey (k : String) (e : RError) : RError :=
  .IOError (k ++ ": " ++ e.display)

/-- Embedding of the `crate::reader::Reader` capability surface consumed by
the decoder: typed lookup by key, each returning a value or an `RError`.
`usize` and `u128` values are represented as `Nat`. -/
structure Reader where
  read_string : String → Except RError String
  read_bool : String → Except RError Bool
  read_usize : String → Except RError Nat
  read_u128 : String → Except RError Nat

/-- Modelled from the spec: the opaque parseable value types consumed by the
decoder (`git::Oid`, `git::RemoteBranchName`, `Ownership` live outside
`src/`).  Each is an abstract type `γ`, `ρ`, `ω` together with a textual
parse function; a parse error is represented by its display string. -/
structure Git (γ ρ ω : Type) where
  oidParse : String → Except String γ
  remoteBranchParse : String → Except String ρ
  ownershipParse : String → Except String ω

/-- Embedding of the `Branch` struct. -/
structure Branch (γ ρ ω : Type) where
  id : String
  name : String
  notes : String
  applied : Bool
  upstream : Option ρ
  created_timestamp_ms : Nat
  updated_timestamp_ms : Nat
  tree : γ
  head : γ
  ownership : ω
  order : Nat
deriving DecidableEq, Repr

/-- Embedding of `BranchUpdateRequest`. -/
structure BranchUpdateRequest (ω : Type) where
  id : String
  name : Option String
  notes : Option String
  ownership : Option ω
  order : Option Nat
deriving DecidableEq, Repr

/-- Embedding of `BranchCreateRequest`. -/
structure BranchCreateRequest (ω : Type) where
  name : Option String
  ownership : Option ω
  order : Option Nat
deriving DecidableEq, Repr

/-- Embedding of `#[derive(Default)]` for `BranchUpdateRequest`: `String`
defaults to the empty string and `Option` fields to `None`. -/
def BranchUpdateRequest.default (ω : Type) : BranchUpdateRequest ω :=
  { id := "", name := none, notes := none, ownership := none, order := none }

/-- Embedding of `#[derive(Default)]` for `BranchCreateRequest`. -/
def BranchCreateRequest.default (ω : Type) : BranchCreateRequest ω :=
  { name := none, ownership := none, order := none }

/-- Rust `Result::or`: keep the first result if it is `Ok`, otherwise
return the second. -/
def orElseOk {ε α : Type} (x y : Except ε α) : Except ε α :=
  match x with
  | .ok a => .ok a
  | .error _ => y

/-- Step 1 of the decode: `reader.read_string("id")`, any error wrapped
with the key `id`. -/
def readId (r : Reader) : Except RError String :=
  (r.read_string "id").mapError (wrapKey "id")

/-- Step 2: `reader.read_string("meta/name")`, any error wrapped with the
key `meta/name`. -/
def readName (r : Reader) : Except RError String :=
  (r.read_string "meta/name").mapError (wrapKey "meta/name")

/-- Step 3: `meta/notes`; `NotFound` yields the empty string, any other
error propagates unwrapped. -/
def readNotes (r : Reader) : Except RError String :=
  match r.read_string "meta/notes" with
  | .ok notes => .ok notes
  | .error .NotFound => .ok ""
  | .error e => .error e

/-- Step 4: `meta/applied`; the wrapped read is followed by `.or(Ok(false))`,
so every error of every kind yields `false`. -/
def readApplied (r : Reader) : Except RError Bool :=
  orElseOk ((r.read_bool "meta/applied").mapError (wrapKey "meta/applied")) (.ok false)

/-- Step 5: `meta/order`; `NotFound` yields `0`, any other error is wrapped
with the key `meta/order`. -/
def readOrder (r : Reader) : Except RError Nat :=
  (match r.read_usize "meta/order" with
   | .ok order => Except.ok order
   | .error .NotFound => Except.ok 0
   | .error e => Except.error e).mapError (wrapKey "meta/order")

/-- Step 6: `meta/upstream`; `NotFound` or an empty stored string yields
`none`; a non-empty string is parsed as a remote branch name, a parse
failure being wrapped with the key `meta/upstream`; any other read error
propagates unwrapped. -/
def readUpstream {γ ρ ω : Type} (g : Git γ ρ ω) (r : Reader) :
    Except RError (Option ρ) :=
  match r.read_string "meta/upstream" with
  | .ok upstream =>
      if upstream.isEmpty then .ok none
      else
        match g.remoteBranchParse upstream with
        | .ok rb => .ok (some rb)
        | .error e => .error (.IOError ("meta/upstream: " ++ e))
  | .error .NotFound => .ok none
  | .error e => .error e

/-- Step 7: read `meta/tree` as a string, errors wrapped with the key. -/
def readTree (r : Reader) : Except RError String :=
  (r.read_string "meta/tree").mapError (wrapKey "meta/tree")

/-- Step 8: read `meta/head` as a string, errors wrapped with the key. -/
def readHead (r : Reader) : Except RError String :=
  (r.read_string "meta/head").mapError (wrapKey "meta/head")

/-- Step 9: `meta/created_timestamp_ms` as a `u128`, errors wrapped. -/
def readCreated (r : Reader) : Except RError Nat :=
  (r.read_u128 "meta/created_timestamp_ms").mapError (wrapKey "meta/created_timestamp_ms")

/-- Step 10: `meta/updated_timestamp_ms` as a `u128`, errors wrapped. -/
def readUpdated (r : Reader) : Except RError Nat :=
  (r.read_u128 "meta/updated_timestamp_ms").mapError (wrapKey "meta/updated_timestamp_ms")

/-- Step 11: read `meta/ownership` as a string, errors wrapped. -/
def readOwnershipString (r : Reader) : Except RError String :=
  (r.read_string "meta/ownership").mapError (wrapKey "meta/ownership")

/-- Step 12: parse the ownership string, a parse error being wrapped with
the key `meta/ownership`. -/
def parseOwnership {γ ρ ω : Type} (g : Git γ ρ ω) (s : String) :
    Except RError ω :=
  (g.ownershipParse s).mapError (fun e => RError.IOError ("meta/ownership: " ++ e))

/-- Step 13, inside the final struct literal: parse the tree string into an
object id, a parse error being wrapped with the key `meta/tree`. -/
def parseTree {γ ρ ω : Type} (g : Git γ ρ ω) (s : String) :
    Except RError γ :=
  (g.oidParse s).mapError (fun e => RError.IOError ("meta/tree: " ++ e))

/-- Step 14, inside the final struct literal: parse the head string into an
object id, a parse error being wrapped with the key `meta/head`. -/
def parseHead {γ ρ ω : Type} (g : Git γ ρ ω) (s : String) :
    Except RError γ :=
  (g.oidParse s).mapError (fun e => RError.IOError ("meta/head: " ++ e))

/-- Embedding of `TryFrom<&dyn crate::reader::Reader> for Branch`.  The
steps are in the source order; note that the tree and head strings are
parsed only during assembly of the struct literal, after the ownership
parse. -/
def Branch.tryFrom {γ ρ ω : Type} (g : Git γ ρ ω) (r : Reader) :
    Except RError (Branch γ ρ ω) := do
  let id ← readId r
  let name ← readName r
  let notes ← readNotes r
  let applied ← readApplied r
  let order ← readOrder r
  let upstream ← readUpstream g r
  let treeString ← readTree r
  let headString ← readHead r
  let created_timestamp_ms ← readCreated r
  let updated_timestamp_ms ← readUpdated r
  let ownershipString ← readOwnershipString r
  let ownership ← parseOwnership g ownershipString
  let tree ← parseTree g treeString
  let head ← parseHead g headString
  pure { id := id, name := name, notes := notes, applied := applied,
         upstream := upstream, created_timestamp_ms := created_timestamp_ms,
         updated_timestamp_ms := updated_timestamp_ms, tree := tree,
         head := head, ownership := ownership, order := order }

/-- Value the decoder assigns to `notes` when the read is benign: the
stored string if present, the empty string otherwise. -/
def notesVal (r : Reader) : String :=
  match r.read_string "meta/notes" with
  | .ok s => s
  | .error _ => ""

/-- Value the decoder assigns to `applied`: the stored boolean if the read
succeeds, `false` on any error. -/
def appliedVal (r : Reader) : Bool :=
  match r.read_bool "meta/applied" with
  | .ok b => b
  | .error _ => false

/-- Value the decoder assigns to `order` when the read is benign. -/
def orderVal (r : Reader) : Nat :=
  match r.read_usize "meta/order" with
  | .ok o => o
  | .error _ => 0

/-- Value the decoder assigns to `upstream` when the read is benign. -/
def upstreamVal {γ ρ ω : Type} (g : Git γ ρ ω) (r : Reader) : Option ρ :=
  match r.read_string "meta/upstream" with
  | .ok s =>
      if s.isEmpty then none
      else
        match g.remoteBranchParse s with
        | .ok rb => some rb
        | .error _ => none
  | .error _ => none

/-- The read of `meta/notes` neither failed nor lost data: it returned a
value or `NotFound`. -/
def notesBenign (r : Reader) : Bool :=
  match r.read_string "meta/notes" with
  | .ok _ => true
  | .error .NotFound => true
  | .error (.IOError _) => false

/-- The read of `meta/order` returned a value or `NotFound`. -/
def orderBenign (r : Reader) : Bool :=
  match r.read_usize "meta/order" with
  | .ok _ => true
  | .error .NotFound => true
  | .error (.IOError _) => false

/-- The read of `meta/upstream` returned `NotFound`, an empty string, or a
parseable remote branch name. -/
def upstreamBenign {γ ρ ω : Type} (g : Git γ ρ ω) (r : Reader) : Bool :=
  match r.read_string "meta/upstream" with
  | .ok s =>
      if s.isEmpty then true
      else
        match g.remoteBranchParse s with
        | .ok _ => true
        | .error _ => false
  | .error .NotFound => true
  | .error (.IOError _) => false

@[simp] lemma ok_bind {ε α β : Type} (a : α) (f : α → Except ε β) :
    (Except.ok a : Except ε α) >>= f = f a := rfl

@[simp] lemma error_bind {ε α β : Type} (e : ε) (f : α → Except ε β) :
    (Except.error e : Except ε α) >>= f = Except.error e := rfl

@[simp] lemma map_ok_ex {ε α β : Type} (f : α → β) (a : α) :
    f <$> (Except.ok a : Except ε α) = Except.ok (f a) := rfl

@[simp] lemma map_error_ex {ε α β : Type} (f : α → β) (e : ε) :
    f <$> (Except.error e : Except ε α) = (Except.error e : Except ε β) := rfl

@[simp] lemma empty_isEmpty : "".isEmpty = true := rfl

lemma readApplied_eq (r : Reader) : readApplied r = .ok (appliedVal r) := by
  cases h : r.read_bool "meta/applied" <;>
    simp [readApplied, appliedVal, orElseOk, Except.mapError, h]

lemma readNotes_eq (r : Reader) (h : notesBenign r = true) :
    readNotes r = .ok (notesVal r) := by
  unfold notesBenign at h
  cases h' : r.read_string "meta/notes" with
  | ok s => simp [readNotes, notesVal, h']
  | error e =>
      cases e with
      | NotFound => simp [readNotes, notesVal, h']
      | IOError m => rw [h'] at h; simp at h

lemma readOrder_eq (r : Reader) (h : orderBenign r = true) :
    readOrder r = .ok (orderVal r) := by
  unfold orderBenign at h
  cases h' : r.read_usize "meta/order" with
  | ok o => simp [readOrder, orderVal, Except.mapError, h']
  | error e =>
      cases e with
      | NotFound => simp [readOrder, orderVal, Except.mapError, h']
      | IOError m => rw [h'] at h; simp at h

lemma readUpstream_eq {γ ρ ω : Type} (g : Git γ ρ ω) (r : Reader)
    (h : upstreamBenign g r = true) :
    readUpstream g r = .ok (upstreamVal g r) := by
  unfold upstreamBenign at h
  cases h' : r.read_string "meta/upstream" with
  | ok s =>
      rw [h'] at h
      by_cases he : s.isEmpty
      · simp [readUpstream, upstreamVal, h', he]
      · cases hp : g.remoteBranchParse s with
        | ok rb => simp [readUpstream, upstreamVal, h', he, hp]
        | error m => simp [he, hp] at h
  | error e =>
      cases e with
      | NotFound => simp [readUpstream, upstreamVal, h']
      | IOError m => rw [h'] at h; simp at h

/-- Master success lemma: when every required read succeeds, every required
parse succeeds, and the three fallible optional reads are benign, the
decode succeeds and every field carries the decoded value. -/
lemma tryFrom_ok {γ ρ ω : Type} (g : Git γ ρ ω) (r : Reader)
    {i n ts hs os : String} {c u : Nat} {tv hv : γ} {ov : ω}
    (hid : r.read_string "id" = .ok i)
    (hname : r.read_string "meta/name" = .ok n)
    (hnotes : notesBenign r = true)
    (hord : orderBenign r = true)
    (hup : upstreamBenign g r = true)
    (htree : r.read_string "meta/tree" = .ok ts)
    (hhead : r.read_string "meta/head" = .ok hs)
    (hc : r.read_u128 "meta/created_timestamp_ms" = .ok c)
    (hu : r.read_u128 "meta/updated_timestamp_ms" = .ok u)
    (hos : r.read_string "meta/ownership" = .ok os)
    (hop : g.ownershipParse os = .ok ov)
    (htp : g.oidParse ts = .ok tv)
    (hhp : g.oidParse hs = .ok hv) :
    Branch.tryFrom g r = .ok
      { id := i, name := n, notes := notesVal r, applied := appliedVal r,
        upstream := upstreamVal g r, created_timestamp_ms := c,
        updated_timestamp_ms := u, tree := tv, head := hv, ownership := ov,
        order := orderVal r } := by
  simp [Branch.tryFrom, readId, readName, readTree, readHead, readCreated,
        readUpdated, readOwnershipString, parseOwnership, parseTree, parseHead,
        Except.mapError, hid, hname, htree, hhead, hc, hu, hos, hop, htp, hhp,
        readNotes_eq r hnotes, readOrder_eq r hord, readUpstream_eq g r hup,
        readApplied_eq r]

/-- The returned error is an `IOError` whose message is the given key name,
a colon and a space, followed by some cause text. -/
def wrappedWith (k : String) (e : RError) : Prop :=
  ∃ m, e = RError.IOError (k ++ ": " ++ m)

/-- A concrete instantiation of the opaque parseable value types, used for
evaluating the decoder on concrete records: all three types are `String`;
the strings `bad-oid` and `bad-ownership` fail their parses, and the only
valid remote branch name is `origin/feature`. -/
def gTest : Git String String String :=
  { oidParse := fun s => if s = "bad-oid" then .error "invalid oid" else .ok s,
    remoteBranchParse := fun s =>
      if s = "origin/feature" then .ok s else .error "invalid remote branch name",
    ownershipParse := fun s =>
      if s = "bad-ownership" then .error "invalid ownership" else .ok s }

/-- A record holding every one of the eleven keys with valid values. -/
def rFull : Reader :=
  { read_string := fun k =>
      if k = "id" then .ok "b1"
      else if k = "meta/name" then .ok "feature-x"
      else if k = "meta/notes" then .ok "some notes"
      else if k = "meta/upstream" then .ok "origin/feature"
      else if k = "meta/tree" then .ok "oid-a"
      else if k = "meta/head" then .ok "oid-b"
      else if k = "meta/ownership" then .ok "src/main.rs:1-10"
      else .error .NotFound,
    read_bool := fun k => if k = "meta/applied" then .ok true else .error .NotFound,
    read_usize := fun k => if k = "meta/order" then .ok 5 else .error .NotFound,
    read_u128 := fun k =>
      if k = "meta/created_timestamp_ms" then .ok 1000
      else if k = "meta/updated_timestamp_ms" then .ok 2000
      else .error .NotFound }

/-- A record holding exactly the seven required keys with valid values, as
in the scenario of the spec. -/
def rScenario : Reader :=
  { read_string := fun k =>
      if k = "id" then .ok "b1"
      else if k = "meta/name" then .ok "feature-x"
      else if k = "meta/tree" then .ok "oid-a"
      else if k = "meta/head" then .ok "oid-b"
      else if k = "meta/ownership" then .ok "src/main.rs:1-10"
      else .error .NotFound,
    read_bool := fun _ => .error .NotFound,
    read_usize := fun _ => .error .NotFound,
    read_u128 := fun k =>
      if k = "meta/created_timestamp_ms" then .ok 1000
      else if k = "meta/updated_timestamp_ms" then .ok 2000
      else .error .NotFound }

/-- C1: for every record in which all eleven keys are present and every
stored value passes its type coercion, the decode succeeds and returns a
Branch whose every field equals the stored value after coercion (string
fields verbatim, parsed fields equal to the parse of the stored string,
upstream equal to the coercion of the stored upstream string). -/
theorem C1_full_record_roundtrip {γ ρ ω : Type} (g : Git γ ρ ω) (r : Reader)
    {i n no u ts hs os : String} {a : Bool} {o c ut : Nat}
    {tv hv : γ} {ov : ω} {uv : Option ρ}
    (hid : r.read_string "id" = .ok i)
    (hname : r.read_string "meta/name" = .ok n)
    (hnotes : r.read_string "meta/notes" = .ok no)
    (happ : r.read_bool "meta/applied" = .ok a)
    (hord : r.read_usize "meta/order" = .ok o)
    (hup : r.read_string "meta/upstream" = .ok u)
    (hupc : (if u.isEmpty then Except.ok none
             else Except.map some (g.remoteBranchParse u)) = Except.ok uv)
    (htree : r.read_string "meta/tree" = .ok ts)
    (htp : g.oidParse ts = .ok tv)
    (hhead : r.read_string "meta/head" = .ok hs)
    (hhp : g.oidParse hs = .ok hv)
    (hc : r.read_u128 "meta/created_timestamp_ms" = .ok c)
    (hu : r.read_u128 "meta/updated_timestamp_ms" = .ok ut)
    (hos : r.read_string "meta/ownership" = .ok os)
    (hop : g.ownershipParse os = .ok ov) :
    Branch.tryFrom g r = .ok
      { id := i, name := n, notes := no, applied := a, upstream := uv,
        created_timestamp_ms := c, updated_timestamp_ms := ut, tree := tv,
        head := hv, ownership := ov, order := o } := by
  have hnb : notesBenign r = true := by simp [notesBenign, hnotes]
  have hnv : notesVal r = no := by simp [notesVal, hnotes]
  have hob : orderBenign r = true := by simp [orderBenign, hord]
  have hov2 : orderVal r = o := by simp [orderVal, hord]
  have hav : appliedVal r = a := by simp [appliedVal, happ]
  have hub : upstreamBenign g r = true := by
    by_cases he : u.isEmpty
    · simp [upstreamBenign, hup, he]
    · cases hp : g.remoteBranchParse u with
      | ok rb => simp [upstreamBenign, hup, he, hp]
      | error m =>
          rw [if_neg he, hp] at hupc
          simp [Except.map] at hupc
  have huv : upstreamVal g r = uv := by
    by_cases he : u.isEmpty
    · rw [if_pos he] at hupc
      simp [upstreamVal, hup, he]
      exact (Except.ok.inj hupc)
    · cases hp : g.remoteBranchParse u with
      | ok rb =>
          rw [if_neg he, hp] at hupc
          simp [Except.map] at hupc
          simp [upstreamVal, hup, he, hp, hupc]
      | error m =>
          rw [if_neg he, hp] at hupc
          simp [Except.map] at hupc
  have hmain := tryFrom_ok g r hid hname hnb hob hub htree hhead hc hu hos hop htp hhp
  rw [hnv, hov2, hav, huv] at hmain
  exact hmain

theorem C1_full_record_roundtrip_witness :
    Branch.tryFrom gTest rFull = .ok
      { id := "b1", name := "feature-x", notes := "some notes", applied := true,
        upstream := some "origin/feature", created_timestamp_ms := 1000,
        updated_timestamp_ms := 2000, tree := "oid-a", head := "oid-b",
        ownership := "src/main.rs:1-10", order := 5 } := by
  apply C1_full_record_roundtrip gTest rFull <;> rfl

/-- C2: for every record whose required keys are present and valid and
whose optional fields are benign, the decode succeeds, the required fields
carry the stored values after coercion, and each optional field defaults
independently: if `meta/notes` is NotFound the decoded notes is the empty
string, if `meta/order` is NotFound the decoded order is 0, if
`meta/upstream` is NotFound or stored as the empty string the decoded
upstream is none, and any error on `meta/applied` gives false; in
particular a record containing only the seven required keys decodes to
the Branch with all four defaults. -/
theorem C2_optional_field_defaults {γ ρ ω : Type} (g : Git γ ρ ω) (r : Reader)
    {i n ts hs os : String} {c ut : Nat} {tv hv : γ} {ov : ω}
    (hid : r.read_string "id" = .ok i)
    (hname : r.read_string "meta/name" = .ok n)
    (hnb : notesBenign r = true)
    (hob : orderBenign r = true)
    (hub : upstreamBenign g r = true)
    (htree : r.read_string "meta/tree" = .ok ts)
    (htp : g.oidParse ts = .ok tv)
    (hhead : r.read_string "meta/head" = .ok hs)
    (hhp : g.oidParse hs = .ok hv)
    (hc : r.read_u128 "meta/created_timestamp_ms" = .ok c)
    (hu : r.read_u128 "meta/updated_timestamp_ms" = .ok ut)
    (hos : r.read_string "meta/ownership" = .ok os)
    (hop : g.ownershipParse os = .ok ov) :
    ∃ b, Branch.tryFrom g r = .ok b ∧
      b.id = i ∧ b.name = n ∧ b.created_timestamp_ms = c ∧
      b.updated_timestamp_ms = ut ∧ b.tree = tv ∧ b.head = hv ∧
      b.ownership = ov ∧
      (r.read_string "meta/notes" = .error .NotFound → b.notes = "") ∧
      (r.read_usize "meta/order" = .error .NotFound → b.order = 0) ∧
      (r.read_string "meta/upstream" = .error .NotFound ∨
        r.read_string "meta/upstream" = .ok "" → b.upstream = none) ∧
      (∀ e, r.read_bool "meta/applied" = .error e → b.applied = false) ∧
      (r.read_string "meta/notes" = .error .NotFound →
        r.read_bool "meta/applied" = .error .NotFound →
        r.read_usize "meta/order" = .error .NotFound →
        (r.read_string "meta/upstream" = .error .NotFound ∨
          r.read_string "meta/upstream" = .ok "") →
        b = { id := i, name := n, notes := "", applied := false,
              upstream := none, created_timestamp_ms := c,
              updated_timestamp_ms := ut, tree := tv, head := hv,
              ownership := ov, order := 0 }) := by
  refine ⟨_, tryFrom_ok g r hid hname hnb hob hub htree hhead hc hu hos hop htp hhp,
    rfl, rfl, rfl, rfl, rfl, rfl, rfl, ?_, ?_, ?_, ?_, ?_⟩
  · intro h
    simp [notesVal, h]
  · intro h
    simp [orderVal, h]
  · intro h
    cases h with
    | inl h2 => simp [upstreamVal, h2]
    | inr h2 => simp [upstreamVal, h2]
  · intro e h
    simp [appliedVal, h]
  · intro h1 h2 h3 h4
    cases h4 with
    | inl h5 =>
        simp [notesVal, h1, appliedVal, h2, orderVal, h3, upstreamVal, h5]
    | inr h5 =>
        simp [notesVal, h1, appliedVal, h2, orderVal, h3, upstreamVal, h5]

theorem C2_optional_field_defaults_witness :
    ∃ b, Branch.tryFrom gTest rScenario = .ok b ∧
      b.id = "b1" ∧ b.name = "feature-x" ∧ b.created_timestamp_ms = 1000 ∧
      b.updated_timestamp_ms = 2000 ∧ b.tree = "oid-a" ∧ b.head = "oid-b" ∧
      b.ownership = "src/main.rs:1-10" ∧
      (rScenario.read_string "meta/notes" = .error .NotFound → b.notes = "") ∧
      (rScenario.read_usize "meta/order" = .error .NotFound → b.order = 0) ∧
      (rScenario.read_string "meta/upstream" = .error .NotFound ∨
        rScenario.read_string "meta/upstream" = .ok "" → b.upstream = none) ∧
      (∀ e, rScenario.read_bool "meta/applied" = .error e → b.applied = false) ∧
      (rScenario.read_string "meta/notes" = .error .NotFound →
        rScenario.read_bool "meta/applied" = .error .NotFound →
        rScenario.read_usize "meta/order" = .error .NotFound →
        (rScenario.read_string "meta/upstream" = .error .NotFound ∨
          rScenario.read_string "meta/upstream" = .ok "") →
        b = { id := "b1", name := "feature-x", notes := "", applied := false,
              upstream := none, created_timestamp_ms := 1000,
              updated_timestamp_ms := 2000, tree := "oid-a", head := "oid-b",
              ownership := "src/main.rs:1-10", order := 0 }) :=
  C2_optional_field_defaults gTest rScenario
    rfl rfl rfl rfl rfl rfl rfl rfl rfl rfl rfl rfl rfl

/-- C10: the default-constructed `BranchUpdateRequest` has `id` equal to the
empty string and `name`, `notes`, `ownership`, `order` all `none`; the
default-constructed `BranchCreateRequest` has `name`, `ownership`, `order`
all `none`. -/
theorem C10_default_requests (ω : Type) :
    (BranchUpdateRequest.default ω).id = "" ∧
    (BranchUpdateRequest.default ω).name = none ∧
    (BranchUpdateRequest.default ω).notes = none ∧
    (BranchUpdateRequest.default ω).ownership = none ∧
    (BranchUpdateRequest.default ω).order = none ∧
    (BranchCreateRequest.default ω).name = none ∧
    (BranchCreateRequest.default ω).ownership = none ∧
    (BranchCreateRequest.default ω).order = none :=
  ⟨rfl, rfl, rfl, rfl, rfl, rfl, rfl, rfl⟩

/-- Inversion for a successful bind: the first action succeeded and the
continuation succeeded on its value. -/
lemma ok_of_bind {ε α β : Type} {x : Except ε α} {f : α → Except ε β} {b : β}
    (h : x >>= f = .ok b) : ∃ a, x = .ok a ∧ f a = .ok b := by
  cases x with
  | ok a => exact ⟨a, rfl, h⟩
  | error e => simp at h

/-- Inversion for a successful map. -/
lemma ok_of_map {ε α β : Type} {x : Except ε α} {f : α → β} {b : β}
    (h : f <$> x = (.ok b : Except ε β)) : ∃ a, x = .ok a ∧ f a = b := by
  cases x with
  | ok a =>
      refine ⟨a, rfl, ?_⟩
      simp at h
      exact h
  | error e => simp at h

/-- Whenever the decode succeeds, the `applied` field of the result is the
value the `meta/applied` step computed: the stored boolean if the read
succeeded and `false` otherwise. -/
lemma tryFrom_applied {γ ρ ω : Type} (g : Git γ ρ ω) (r : Reader)
    (b : Branch γ ρ ω) (hb : Branch.tryFrom g r = .ok b) :
    b.applied = appliedVal r := by
  unfold Branch.tryFrom at hb
  rw [readApplied_eq] at hb
  obtain ⟨i, hi, hb⟩ := ok_of_bind hb
  obtain ⟨n, hn, hb⟩ := ok_of_bind hb
  obtain ⟨no, hno, hb⟩ := ok_of_bind hb
  obtain ⟨ap, hap, hb⟩ := ok_of_bind hb
  obtain ⟨o, ho, hb⟩ := ok_of_bind hb
  obtain ⟨up, hup, hb⟩ := ok_of_bind hb
  obtain ⟨ts, hts, hb⟩ := ok_of_bind hb
  obtain ⟨hs, hhs, hb⟩ := ok_of_bind hb
  obtain ⟨c, hc, hb⟩ := ok_of_bind hb
  obtain ⟨ut, hut, hb⟩ := ok_of_bind hb
  obtain ⟨os, hos, hb⟩ := ok_of_bind hb
  obtain ⟨ov, hov, hb⟩ := ok_of_bind hb
  obtain ⟨tv, htv, hb⟩ := ok_of_bind hb
  obtain ⟨hv, hhv, hb⟩ := ok_of_bind hb
  simp only [pure, Except.pure] at hb
  cases hb
  exact (Except.ok.inj hap).symm

/-- The same reader, except that looking up the boolean key `meta/applied`
now reports `NotFound`, as it would if the key were absent. -/
def withAppliedAbsent (r : Reader) : Reader :=
  { r with read_bool := fun k =>
      if k = "meta/applied" then .error .NotFound else r.read_bool k }

/-- C3: any outcome of reading `meta/applied` other than a successful
boolean (`NotFound`, failed boolean coercion, or an I/O fault) yields
`applied = false`, does not make the decode fail, and leaves every other
field decoding exactly as it would with the key absent: the whole decode
is equal to the decode of the record with `meta/applied` removed, and any
successfully decoded Branch has `applied = false`. -/
theorem C3_applied_fault_suppressed {γ ρ ω : Type} (g : Git γ ρ ω)
    (r : Reader) (e : RError)
    (h : r.read_bool "meta/applied" = .error e) :
    Branch.tryFrom g r = Branch.tryFrom g (withAppliedAbsent r) ∧
    ∀ b, Branch.tryFrom g r = .ok b → b.applied = false := by
  have h1 : readApplied r = .ok false := by
    rw [readApplied_eq]
    simp [appliedVal, h]
  have h2 : readApplied (withAppliedAbsent r) = .ok false := by
    rw [readApplied_eq]
    simp [appliedVal, withAppliedAbsent]
  constructor
  · unfold Branch.tryFrom
    rw [h1, h2]
    rfl
  · intro b hb
    have h3 := tryFrom_applied g r b hb
    rw [h3]
    simp [appliedVal, h]

/-- The full record of `rFull`, except that reading the boolean key
`meta/applied` reports an I/O fault. -/
def rAppliedFault : Reader :=
  { rFull with read_bool := fun k =>
      if k = "meta/applied" then .error (.IOError "corrupt boolean") else .error .NotFound }

/-- The Branch that `rAppliedFault` decodes to. -/
def brAppliedFault : Branch String String String :=
  { id := "b1", name := "feature-x", notes := "some notes", applied := false,
    upstream := some "origin/feature", created_timestamp_ms := 1000,
    updated_timestamp_ms := 2000, tree := "oid-a", head := "oid-b",
    ownership := "src/main.rs:1-10", order := 5 }

theorem C3_applied_fault_suppressed_witness :
    (Branch.tryFrom gTest rAppliedFault =
      Branch.tryFrom gTest (withAppliedAbsent rAppliedFault)) ∧
    brAppliedFault.applied = false :=
  ⟨(C3_applied_fault_suppressed gTest rAppliedFault (.IOError "corrupt boolean") rfl).1,
   (C3_applied_fault_suppressed gTest rAppliedFault (.IOError "corrupt boolean") rfl).2
     brAppliedFault rfl⟩

/-- The seven required fields of a Branch record. -/
inductive ReqField where
  | id | name | tree | head | created | updated | ownership
deriving DecidableEq, Fintype, Repr

/-- The storage key of each required field. -/
def ReqField.key : ReqField → String
  | .id => "id"
  | .name => "meta/name"
  | .tree => "meta/tree"
  | .head => "meta/head"
  | .created => "meta/created_timestamp_ms"
  | .updated => "meta/updated_timestamp_ms"
  | .ownership => "meta/ownership"

/-- A required field is good when its read succeeds and, where the field is
parsed, its parse succeeds as well. -/
def reqGood {γ ρ ω : Type} (g : Git γ ρ ω) (r : Reader) : ReqField → Bool
  | .id => match r.read_string "id" with
      | .ok _ => true
      | .error _ => false
  | .name => match r.read_string "meta/name" with
      | .ok _ => true
      | .error _ => false
  | .tree => match r.read_string "meta/tree" with
      | .ok s =>
          (match g.oidParse s with
           | .ok _ => true
           | .error _ => false)
      | .error _ => false
  | .head => match r.read_string "meta/head" with
      | .ok s =>
          (match g.oidParse s with
           | .ok _ => true
           | .error _ => false)
      | .error _ => false
  | .created => match r.read_u128 "meta/created_timestamp_ms" with
      | .ok _ => true
      | .error _ => false
  | .updated => match r.read_u128 "meta/updated_timestamp_ms" with
      | .ok _ => true
      | .error _ => false
  | .ownership => match r.read_string "meta/ownership" with
      | .ok s =>
          (match g.ownershipParse s with
           | .ok _ => true
           | .error _ => false)
      | .error _ => false

/-- The three fallible optional fields are benign. -/
def optBenign {γ ρ ω : Type} (g : Git γ ρ ω) (r : Reader) : Bool :=
  notesBenign r && orderBenign r && upstreamBenign g r

lemma good_id {γ ρ ω : Type} {g : Git γ ρ ω} {r : Reader}
    (h : reqGood g r .id = true) : ∃ s, r.read_string "id" = .ok s := by
  simp only [reqGood] at h
  cases h2 : r.read_string "id" with
  | ok s => exact ⟨s, rfl⟩
  | error e => rw [h2] at h; simp at h

lemma good_name {γ ρ ω : Type} {g : Git γ ρ ω} {r : Reader}
    (h : reqGood g r .name = true) : ∃ s, r.read_string "meta/name" = .ok s := by
  simp only [reqGood] at h
  cases h2 : r.read_string "meta/name" with
  | ok s => exact ⟨s, rfl⟩
  | error e => rw [h2] at h; simp at h

lemma good_tree {γ ρ ω : Type} {g : Git γ ρ ω} {r : Reader}
    (h : reqGood g r .tree = true) :
    ∃ s v, r.read_string "meta/tree" = .ok s ∧ g.oidParse s = .ok v := by
  simp only [reqGood] at h
  cases h2 : r.read_string "meta/tree" with
  | ok s =>
      rw [h2] at h
      cases h3 : g.oidParse s with
      | ok v => exact ⟨s, v, rfl, h3⟩
      | error e => simp [h3] at h
  | error e => rw [h2] at h; simp at h

lemma good_head {γ ρ ω : Type} {g : Git γ ρ ω} {r : Reader}
    (h : reqGood g r .head = true) :
    ∃ s v, r.read_string "meta/head" = .ok s ∧ g.oidParse s = .ok v := by
  simp only [reqGood] at h
  cases h2 : r.read_string "meta/head" with
  | ok s =>
      rw [h2] at h
      cases h3 : g.oidParse s with
      | ok v => exact ⟨s, v, rfl, h3⟩
      | error e => simp [h3] at h
  | error e => rw [h2] at h; simp at h

lemma good_created {γ ρ ω : Type} {g : Git γ ρ ω} {r : Reader}
    (h : reqGood g r .created = true) :
    ∃ c, r.read_u128 "meta/created_timestamp_ms" = .ok c := by
  simp only [reqGood] at h
  cases h2 : r.read_u128 "meta/created_timestamp_ms" with
  | ok c => exact ⟨c, rfl⟩
  | error e => rw [h2] at h; simp at h

lemma good_updated {γ ρ ω : Type} {g : Git γ ρ ω} {r : Reader}
    (h : reqGood g r .updated = true) :
    ∃ c, r.read_u128 "meta/updated_timestamp_ms" = .ok c := by
  simp only [reqGood] at h
  cases h2 : r.read_u128 "meta/updated_timestamp_ms" with
  | ok c => exact ⟨c, rfl⟩
  | error e => rw [h2] at h; simp at h

lemma good_ownership {γ ρ ω : Type} {g : Git γ ρ ω} {r : Reader}
    (h : reqGood g r .ownership = true) :
    ∃ s v, r.read_string "meta/ownership" = .ok s ∧ g.ownershipParse s = .ok v := by
  simp only [reqGood] at h
  cases h2 : r.read_string "meta/ownership" with
  | ok s =>
      rw [h2] at h
      cases h3 : g.ownershipParse s with
      | ok v => exact ⟨s, v, rfl, h3⟩
      | error e => simp [h3] at h
  | error e => rw [h2] at h; simp at h

/-- C4: for every record in which exactly one required field (id, name,
tree, head, created_timestamp_ms, updated_timestamp_ms, ownership) is
missing or fails its coercion — the other required fields being good and
the optional fields benign — the decode returns an error carrying that
key name of that field. -/
theorem C4_required_error_names_key {γ ρ ω : Type} (g : Git γ ρ ω)
    (r : Reader) (f : ReqField)
    (hbad : reqGood g r f = false)
    (hothers : ∀ f2, f2 ≠ f → reqGood g r f2 = true)
    (hopt : optBenign g r = true) :
    ∃ m, Branch.tryFrom g r = .error (.IOError (f.key ++ ": " ++ m)) := by
  have hopt2 := hopt
  simp only [optBenign, Bool.and_eq_true] at hopt2
  obtain ⟨⟨hnb, hob⟩, hub⟩ := hopt2
  cases f with
  | id =>
      simp only [reqGood] at hbad
      cases h : r.read_string "id" with
      | ok s => rw [h] at hbad; simp at hbad
      | error e =>
          refine ⟨e.display, ?_⟩
          simp [Branch.tryFrom, readId, Except.mapError, wrapKey, h, ReqField.key]
  | name =>
      obtain ⟨si, hi⟩ := good_id (hothers .id (by decide))
      simp only [reqGood] at hbad
      cases h : r.read_string "meta/name" with
      | ok s => rw [h] at hbad; simp at hbad
      | error e =>
          refine ⟨e.display, ?_⟩
          simp [Branch.tryFrom, readId, readName, Except.mapError, wrapKey,
                hi, h, ReqField.key]
  | created =>
      obtain ⟨si, hi⟩ := good_id (hothers .id (by decide))
      obtain ⟨sn, hn⟩ := good_name (hothers .name (by decide))
      obtain ⟨st, vt, ht, htp⟩ := good_tree (hothers .tree (by decide))
      obtain ⟨sh, vh, hh, hhp⟩ := good_head (hothers .head (by decide))
      simp only [reqGood] at hbad
      cases h : r.read_u128 "meta/created_timestamp_ms" with
      | ok c => rw [h] at hbad; simp at hbad
      | error e =>
          refine ⟨e.display, ?_⟩
          simp [Branch.tryFrom, readId, readName, readTree, readHead,
                readCreated, Except.mapError, wrapKey, hi, hn, ht, hh, h,
                readNotes_eq r hnb, readOrder_eq r hob,
                readUpstream_eq g r hub, readApplied_eq, ReqField.key]
  | updated =>
      obtain ⟨si, hi⟩ := good_id (hothers .id (by decide))
      obtain ⟨sn, hn⟩ := good_name (hothers .name (by decide))
      obtain ⟨st, vt, ht, htp⟩ := good_tree (hothers .tree (by decide))
      obtain ⟨sh, vh, hh, hhp⟩ := good_head (hothers .head (by decide))
      obtain ⟨cc, hcc⟩ := good_created (hothers .created (by decide))
      simp only [reqGood] at hbad
      cases h : r.read_u128 "meta/updated_timestamp_ms" with
      | ok c => rw [h] at hbad; simp at hbad
      | error e =>
          refine ⟨e.display, ?_⟩
          simp [Branch.tryFrom, readId, readName, readTree, readHead,
                readCreated, readUpdated, Except.mapError, wrapKey, hi, hn,
                ht, hh, hcc, h, readNotes_eq r hnb, readOrder_eq r hob,
                readUpstream_eq g r hub, readApplied_eq, ReqField.key]
  | ownership =>
      obtain ⟨si, hi⟩ := good_id (hothers .id (by decide))
      obtain ⟨sn, hn⟩ := good_name (hothers .name (by decide))
      obtain ⟨st, vt, ht, htp⟩ := good_tree (hothers .tree (by decide))
      obtain ⟨sh, vh, hh, hhp⟩ := good_head (hothers .head (by decide))
      obtain ⟨cc, hcc⟩ := good_created (hothers .created (by decide))
      obtain ⟨uu, huu⟩ := good_updated (hothers .updated (by decide))
      simp only [reqGood] at hbad
      cases h : r.read_string "meta/ownership" with
      | error e =>
          refine ⟨e.display, ?_⟩
          simp [Branch.tryFrom, readId, readName, readTree, readHead,
                readCreated, readUpdated, readOwnershipString,
                Except.mapError, wrapKey, hi, hn, ht, hh, hcc, huu, h,
                readNotes_eq r hnb, readOrder_eq r hob,
                readUpstream_eq g r hub, readApplied_eq, ReqField.key]
      | ok s =>
          rw [h] at hbad
          cases hp : g.ownershipParse s with
          | ok v => simp [hp] at hbad
          | error m =>
              refine ⟨m, ?_⟩
              simp [Branch.tryFrom, readId, readName, readTree, readHead,
                    readCreated, readUpdated, readOwnershipString,
                    parseOwnership, Except.mapError, wrapKey, hi, hn, ht, hh,
                    hcc, huu, h, hp, readNotes_eq r hnb, readOrder_eq r hob,
                    readUpstream_eq g r hub, readApplied_eq, ReqField.key]
  | tree =>
      obtain ⟨si, hi⟩ := good_id (hothers .id (by decide))
      obtain ⟨sn, hn⟩ := good_name (hothers .name (by decide))
      obtain ⟨sh, vh, hh, hhp⟩ := good_head (hothers .head (by decide))
      obtain ⟨cc, hcc⟩ := good_created (hothers .created (by decide))
      obtain ⟨uu, huu⟩ := good_updated (hothers .updated (by decide))
      obtain ⟨so, vo, ho, hop⟩ := good_ownership (hothers .ownership (by decide))
      simp only [reqGood] at hbad
      cases h : r.read_string "meta/tree" with
      | error e =>
          refine ⟨e.display, ?_⟩
          simp [Branch.tryFrom, readId, readName, readTree, Except.mapError,
                wrapKey, hi, hn, h, readNotes_eq r hnb, readOrder_eq r hob,
                readUpstream_eq g r hub, readApplied_eq, ReqField.key]
      | ok s =>
          rw [h] at hbad
          cases hp : g.oidParse s with
          | ok v => simp [hp] at hbad
          | error m =>
              refine ⟨m, ?_⟩
              simp [Branch.tryFrom, readId, readName, readTree, readHead,
                    readCreated, readUpdated, readOwnershipString,
                    parseOwnership, parseTree, Except.mapError, wrapKey,
                    hi, hn, h, hh, hcc, huu, ho, hop, hp,
                    readNotes_eq r hnb, readOrder_eq r hob,
                    readUpstream_eq g r hub, readApplied_eq, ReqField.key]
  | head =>
      obtain ⟨si, hi⟩ := good_id (hothers .id (by decide))
      obtain ⟨sn, hn⟩ := good_name (hothers .name (by decide))
      obtain ⟨st, vt, ht, htp⟩ := good_tree (hothers .tree (by decide))
      obtain ⟨cc, hcc⟩ := good_created (hothers .created (by decide))
      obtain ⟨uu, huu⟩ := good_updated (hothers .updated (by decide))
      obtain ⟨so, vo, ho, hop⟩ := good_ownership (hothers .ownership (by decide))
      simp only [reqGood] at hbad
      cases h : r.read_string "meta/head" with
      | error e =>
          refine ⟨e.display, ?_⟩
          simp [Branch.tryFrom, readId, readName, readTree, readHead,
                Except.mapError, wrapKey, hi, hn, ht, h,
                readNotes_eq r hnb, readOrder_eq r hob,
                readUpstream_eq g r hub, readApplied_eq, ReqField.key]
      | ok s =>
          rw [h] at hbad
          cases hp : g.oidParse s with
          | ok v => simp [hp] at hbad
          | error m =>
              refine ⟨m, ?_⟩
              simp [Branch.tryFrom, readId, readName, readTree, readHead,
                    readCreated, readUpdated, readOwnershipString,
                    parseOwnership, parseTree, parseHead, Except.mapError,
                    wrapKey, hi, hn, ht, htp, h, hcc, huu, ho, hop, hp,
                    readNotes_eq r hnb, readOrder_eq r hob,
                    readUpstream_eq g r hub, readApplied_eq, ReqField.key]

/-- The full record of `rFull`, except that the stored ownership string
fails the ownership parse. -/
def rOwnBad : Reader :=
  { rFull with read_string := fun k =>
      if k = "meta/ownership" then .ok "bad-ownership" else rFull.read_string k }

theorem C4_required_error_names_key_witness :
    reqGood gTest rOwnBad ReqField.ownership = false ∧
    ∃ m, Branch.tryFrom gTest rOwnBad =
      .error (.IOError (ReqField.key ReqField.ownership ++ ": " ++ m)) :=
  ⟨by decide,
   C4_required_error_names_key gTest rOwnBad ReqField.ownership
     (by decide) (by decide) (by decide)⟩

/-- The full record of `rFull`, except that the stored upstream string is
non-empty and fails remote-branch-name parsing. -/
def rUpBad : Reader :=
  { rFull with read_string := fun k =>
      if k = "meta/upstream" then .ok "not-a-ref" else rFull.read_string k }

/-- C5: for every record readable up to the upstream step (id and name
reads succeed, notes and order benign) in which `meta/upstream` is present
with a non-empty string that fails remote-branch-name parsing, the decode
returns an error naming the key `meta/upstream`. -/
theorem C5_invalid_upstream_names_key {γ ρ ω : Type} (g : Git γ ρ ω)
    (r : Reader) {i n u e : String}
    (hid : r.read_string "id" = .ok i)
    (hname : r.read_string "meta/name" = .ok n)
    (hnotes : notesBenign r = true)
    (hord : orderBenign r = true)
    (hup : r.read_string "meta/upstream" = .ok u)
    (hne : u.isEmpty = false)
    (hpe : g.remoteBranchParse u = .error e) :
    Branch.tryFrom g r = .error (.IOError ("meta/upstream: " ++ e)) := by
  simp [Branch.tryFrom, readId, readName, readUpstream, Except.mapError,
        hid, hname, hup, hne, hpe, readNotes_eq r hnotes,
        readOrder_eq r hord, readApplied_eq]

theorem C5_invalid_upstream_names_key_witness :
    Branch.tryFrom gTest rUpBad =
      .error (.IOError ("meta/upstream: " ++ "invalid remote branch name")) :=
  C5_invalid_upstream_names_key gTest rUpBad rfl rfl rfl rfl rfl rfl rfl

/-- Inversion for a failed bind: either the first action failed with that
error, or it succeeded and the continuation failed. -/
lemma bind_error_source {ε α β : Type} {x : Except ε α} {f : α → Except ε β}
    {e : ε} (h : x >>= f = .error e) :
    x = .error e ∨ ∃ a, x = .ok a ∧ f a = .error e := by
  cases x with
  | ok a => exact Or.inr ⟨a, rfl, h⟩
  | error e0 =>
      left
      simp at h
      rw [h]

/-- An error coming out of a `wrapKey` mapping is an `IOError`. -/
lemma mapError_wrap_shape {α : Type} {x : Except RError α} {k : String}
    {e : RError} (h : x.mapError (wrapKey k) = .error e) :
    ∃ m, e = .IOError m := by
  cases x with
  | ok a => simp [Except.mapError] at h
  | error e0 =>
      simp [Except.mapError, wrapKey] at h
      exact ⟨k ++ ": " ++ e0.display, h.symm⟩

/-- An error coming out of a parse-wrapping mapping is an `IOError`. -/
lemma mapError_mkio_shape {α : Type} {x : Except String α} {pre : String}
    {e : RError}
    (h : x.mapError (fun s => RError.IOError (pre ++ s)) = .error e) :
    ∃ m, e = .IOError m := by
  cases x with
  | ok a => simp [Except.mapError] at h
  | error s =>
      simp [Except.mapError] at h
      exact ⟨pre ++ s, h.symm⟩

/-- An error coming out of the notes step is an `IOError`: `NotFound` was
already converted into the empty-string default. -/
lemma readNotes_error_shape {r : Reader} {e : RError}
    (h : readNotes r = .error e) : ∃ m, e = .IOError m := by
  unfold readNotes at h
  cases h2 : r.read_string "meta/notes" with
  | ok s => rw [h2] at h; simp at h
  | error e0 =>
      cases e0 with
      | NotFound => rw [h2] at h; simp at h
      | IOError m =>
          rw [h2] at h
          simp at h
          exact ⟨m, h.symm⟩

/-- An error coming out of the upstream step is an `IOError`: `NotFound`
became `none` and a parse failure is wrapped into an `IOError`. -/
lemma readUpstream_error_shape {γ ρ ω : Type} {g : Git γ ρ ω} {r : Reader}
    {e : RError} (h : readUpstream g r = .error e) : ∃ m, e = .IOError m := by
  unfold readUpstream at h
  cases h2 : r.read_string "meta/upstream" with
  | ok s =>
      rw [h2] at h
      by_cases he : s.isEmpty
      · simp [he] at h
      · cases hp : g.remoteBranchParse s with
        | ok rb => simp [he, hp] at h
        | error m =>
            simp [he, hp] at h
            exact ⟨"meta/upstream: " ++ m, h.symm⟩
  | error e0 =>
      cases e0 with
      | NotFound => rw [h2] at h; simp at h
      | IOError m =>
          rw [h2] at h
          simp at h
          exact ⟨m, h.symm⟩

/-- Every error the decode can return is the `IOError` variant: the
`NotFound` variant is never surfaced, even when the root cause was a
required key being not found. -/
lemma tryFrom_error_shape {γ ρ ω : Type} (g : Git γ ρ ω) (r : Reader)
    (e : RError) (h : Branch.tryFrom g r = .error e) : ∃ m, e = .IOError m := by
  unfold Branch.tryFrom at h
  rcases bind_error_source h with h | ⟨i, hi, h⟩
  · exact mapError_wrap_shape h
  rcases bind_error_source h with h | ⟨n, hn, h⟩
  · exact mapError_wrap_shape h
  rcases bind_error_source h with h | ⟨no, hno, h⟩
  · exact readNotes_error_shape h
  rcases bind_error_source h with h | ⟨ap, hap, h⟩
  · rw [readApplied_eq] at h; simp at h
  rcases bind_error_source h with h | ⟨o, ho, h⟩
  · exact mapError_wrap_shape h
  rcases bind_error_source h with h | ⟨up, hup, h⟩
  · exact readUpstream_error_shape h
  rcases bind_error_source h with h | ⟨ts, hts, h⟩
  · exact mapError_wrap_shape h
  rcases bind_error_source h with h | ⟨hs, hhs, h⟩
  · exact mapError_wrap_shape h
  rcases bind_error_source h with h | ⟨c, hc, h⟩
  · exact mapError_wrap_shape h
  rcases bind_error_source h with h | ⟨ut, hut, h⟩
  · exact mapError_wrap_shape h
  rcases bind_error_source h with h | ⟨os, hos, h⟩
  · exact mapError_wrap_shape h
  rcases bind_error_source h with h | ⟨ov, hov, h⟩
  · exact mapError_mkio_shape h
  rcases bind_error_source h with h | ⟨tv, htv, h⟩
  · exact mapError_mkio_shape h
  rcases bind_error_source h with h | ⟨hv, hhv, h⟩
  · exact mapError_mkio_shape h
  simp [pure, Except.pure] at h

/-- A record in which every key is absent. -/
def rEmptyR : Reader :=
  { read_string := fun _ => .error .NotFound,
    read_bool := fun _ => .error .NotFound,
    read_usize := fun _ => .error .NotFound,
    read_u128 := fun _ => .error .NotFound }

/-- C7 counterexample: the missing-vs-corrupt distinction is not retained
as structure.  For the all-absent record the root cause of the failure is
`NotFound` on the required key `id`, yet the returned error is the
`IOError` variant with the cause folded into the formatted message string;
the `NotFound` variant is not returned. -/
theorem C7_counterexample :
    rEmptyR.read_string "id" = .error RError.NotFound ∧
    Branch.tryFrom gTest rEmptyR = .error (.IOError "id: file not found") ∧
    Branch.tryFrom gTest rEmptyR ≠ .error RError.NotFound := by
  refine ⟨rfl, rfl, ?_⟩
  intro h
  have h2 : RError.IOError "id: file not found" = RError.NotFound :=
    Except.error.inj ((rfl :
      Branch.tryFrom gTest rEmptyR = .error (.IOError "id: file not found")).symm.trans h)
  exact RError.noConfusion h2

/-- C7 as amended: the returned error does not retain the not-found versus
I/O-fault distinction structurally.  Every failing decode surfaces the
`IOError` variant; the decode never returns the `NotFound` variant, and
the cause survives only inside the formatted message string. -/
theorem C7_amended_no_structural_cause {γ ρ ω : Type} (g : Git γ ρ ω)
    (r : Reader) : Branch.tryFrom g r ≠ .error RError.NotFound := by
  intro h
  obtain ⟨m, hm⟩ := tryFrom_error_shape g r RError.NotFound h
  exact RError.noConfusion hm

/-- A record with all eleven keys present and all reads succeeding, whose
tree string fails object-id parsing and whose ownership string fails
ownership parsing. -/
def rTreeOwnBad : Reader :=
  { read_string := fun k =>
      if k = "id" then .ok "b1"
      else if k = "meta/name" then .ok "feature-x"
      else if k = "meta/notes" then .ok "n"
      else if k = "meta/upstream" then .ok ""
      else if k = "meta/tree" then .ok "bad-oid"
      else if k = "meta/head" then .ok "oid-b"
      else if k = "meta/ownership" then .ok "bad-ownership"
      else .error .NotFound,
    read_bool := fun k => if k = "meta/applied" then .ok true else .error .NotFound,
    read_usize := fun k => if k = "meta/order" then .ok 1 else .error .NotFound,
    read_u128 := fun k =>
      if k = "meta/created_timestamp_ms" then .ok 1000
      else if k = "meta/updated_timestamp_ms" then .ok 2000
      else .error .NotFound }

/-- C8 counterexample: with all reads succeeding, a record whose tree value
fails object-id parsing and whose ownership value fails ownership parsing
produces an error naming `meta/ownership`, not `meta/tree`: the tree and
head strings are parsed only during assembly, after the ownership parse. -/
theorem C8_counterexample :
    Branch.tryFrom gTest rTreeOwnBad =
      .error (.IOError "meta/ownership: invalid ownership") ∧
    ¬ wrappedWith "meta/tree" (.IOError "meta/ownership: invalid ownership") := by
  constructor
  · rfl
  · rintro ⟨m, hm⟩
    have h1 : "meta/ownership: invalid ownership" = "meta/tree" ++ ": " ++ m :=
      RError.IOError.inj hm
    have h2 := congrArg String.data h1
    rw [String.data_append, String.data_append] at h2
    simp at h2

/-- C8 as amended: the tree and head strings are read before ownership but
parsed only during assembly of the struct literal, after the ownership
parse; hence when both the tree value fails object-id parsing and the
ownership value fails ownership parsing, with all reads succeeding and
the optional fields benign, the returned error names `meta/ownership`. -/
theorem C8_amended_ownership_parsed_first {γ ρ ω : Type} (g : Git γ ρ ω)
    (r : Reader) {i n ts hs os e1 e2 : String} {c ut : Nat}
    (hid : r.read_string "id" = .ok i)
    (hname : r.read_string "meta/name" = .ok n)
    (hnotes : notesBenign r = true)
    (hord : orderBenign r = true)
    (hup : upstreamBenign g r = true)
    (htree : r.read_string "meta/tree" = .ok ts)
    (hhead : r.read_string "meta/head" = .ok hs)
    (hc : r.read_u128 "meta/created_timestamp_ms" = .ok c)
    (hu : r.read_u128 "meta/updated_timestamp_ms" = .ok ut)
    (hos : r.read_string "meta/ownership" = .ok os)
    (htp : g.oidParse ts = .error e1)
    (hop : g.ownershipParse os = .error e2) :
    Branch.tryFrom g r = .error (.IOError ("meta/ownership: " ++ e2)) := by
  simp [Branch.tryFrom, readId, readName, readTree, readHead, readCreated,
        readUpdated, readOwnershipString, parseOwnership, Except.mapError,
        hid, hname, htree, hhead, hc, hu, hos, hop,
        readNotes_eq r hnotes, readOrder_eq r hord,
        readUpstream_eq g r hup, readApplied_eq]

theorem C8_amended_ownership_parsed_first_witness :
    Branch.tryFrom gTest rTreeOwnBad =
      .error (.IOError ("meta/ownership: " ++ "invalid ownership")) :=
  C8_amended_ownership_parsed_first gTest rTreeOwnBad
    rfl rfl rfl rfl rfl rfl rfl rfl rfl rfl rfl rfl

/-- C9: for every reader and every failing decode, the error value returned
is the `IOError` variant of the reader error type; the `NotFound` variant
is never surfaced to the caller, even when the root cause was a required
key being not found. -/
theorem C9_error_always_ioerror {γ ρ ω : Type} (g : Git γ ρ ω) (r : Reader)
    (e : RError) (h : Branch.tryFrom g r = .error e) :
    ∃ m, e = RError.IOError m :=
  tryFrom_error_shape g r e h

theorem C9_error_always_ioerror_witness :
    ∃ m, RError.IOError "id: file not found" = RError.IOError m :=
  C9_error_always_ioerror gTest rEmptyR (.IOError "id: file not found") rfl
